import Mathlib

/-!
Shallow embedding of the core of `bootimage` (disk-image assembly in
`src/build.rs` and the test-verdict protocol in `src/subcommand/test.rs`),
together with theorems checking the natural-language specification against it.

Byte buffers are modelled as `List Nat` (each element a byte value),
strings read from the serial output as `List Char`, and fatal failures
(`panic!` / `.expect`) as `Option` results with `none` for the fatal case.
-/

set_option maxRecDepth 100000

namespace Bootimage

/-- `BLOCK_SIZE` from `src/build.rs` line 12. -/
def BLOCK_SIZE : Nat := 512

/-- `u32::max_value()`, the bound checked by `create_kernel_info_block`. -/
def u32Max : Nat := 4294967295

/-- `LittleEndian::write_u32`: the four bytes of `v` in little-endian order. -/
def writeU32LE (v : Nat) : List Nat :=
  [v % 256, v / 256 % 256, v / 65536 % 256, v / 16777216 % 256]

/-- Little-endian decoding of the first four bytes of a buffer. -/
def decodeU32LE (bytes : List Nat) : Nat :=
  bytes.getD 0 0 + 256 * bytes.getD 1 0 + 65536 * bytes.getD 2 0 +
    16777216 * bytes.getD 3 0

/-- The 512-byte buffer built by `create_kernel_info_block` once both size
checks have passed: `[0u8; 512]` with the kernel size written (little-endian)
at bytes [0,4) and the package size at bytes [8,12). -/
def raw_info_block (kernel_size package_size : Nat) : List Nat :=
  writeU32LE kernel_size ++ List.replicate 4 0 ++ writeU32LE package_size ++
    List.replicate 500 0

/-- `create_kernel_info_block` (`src/build.rs` lines 229-251). The source
panics when the kernel size or the package size exceeds `u32::max_value()`;
the panic is modelled as `none`. An absent package size is written as 0. -/
def create_kernel_info_block (kernel_size : Nat) (maybe_package_size : Option Nat) :
    Option (List Nat) :=
  if kernel_size ≤ u32Max then
    match maybe_package_size with
    | some size =>
      if size ≤ u32Max then some (raw_info_block kernel_size size) else none
    | none => some (raw_info_block kernel_size 0)
  else none

/-- The padding length computed by `pad_file` (`src/build.rs` lines 401-405)
for a 512-byte padding buffer:
`(padding.len() - (written_size % padding.len())) % padding.len()`. -/
def pad_len (written_size : Nat) : Nat :=
  (512 - written_size % 512) % 512

/-- The bytes written by `create_disk_image` before the minimum-size step
(`src/build.rs` lines 370-417): bootloader bytes, the info block, the kernel
bytes padded per `pad_file`, then, if present, the package bytes padded per
`pad_file`. -/
def assemble_segments (bootloader_data kernel : List Nat)
    (maybe_package : Option (List Nat)) (kernel_info_block : List Nat) : List Nat :=
  match maybe_package with
  | none =>
    bootloader_data ++ kernel_info_block ++ kernel ++
      List.replicate (pad_len kernel.length) 0
  | some package =>
    bootloader_data ++ kernel_info_block ++ kernel ++
      List.replicate (pad_len kernel.length) 0 ++ package ++
      List.replicate (pad_len package.length) 0

/-- `create_disk_image` (`src/build.rs` lines 340-428) as the byte contents of
the written file. The minimum-size step (lines 419-425) calls
`File::set_len(min_size)` only when the current length is smaller, which
extends the file with zero bytes. -/
def create_disk_image (bootloader_data kernel : List Nat)
    (maybe_package : Option (List Nat)) (kernel_info_block : List Nat) :
    Option Nat → List Nat
  | none => assemble_segments bootloader_data kernel maybe_package kernel_info_block
  | some min_size =>
    if (assemble_segments bootloader_data kernel maybe_package kernel_info_block).length
       < min_size then
      assemble_segments bootloader_data kernel maybe_package kernel_info_block ++
        List.replicate
          (min_size -
            (assemble_segments bootloader_data kernel maybe_package
              kernel_info_block).length) 0
    else assemble_segments bootloader_data kernel maybe_package kernel_info_block

/-- The composition performed by `build_impl` (`src/build.rs` lines 82-131):
the info block is built from the kernel file length and the optional package
file length, then passed to `create_disk_image`. -/
def build_disk_image (bootloader_data kernel : List Nat)
    (maybe_package : Option (List Nat)) (minimum_image_size : Option Nat) :
    Option (List Nat) :=
  (create_kernel_info_block kernel.length (maybe_package.map List.length)).map
    (fun info => create_disk_image bootloader_data kernel maybe_package info
      minimum_image_size)

/-- `TestResult` (`src/subcommand/test.rs` lines 168-174). -/
inductive TestResult
  | Ok
  | Failed
  | TimedOut
  | Invalid
deriving DecidableEq

/-- The marker `"ok\n"` checked by `handle_exit_status` for exit code 1. -/
def okMarker : List Char := ['o', 'k', '\n']

/-- The marker `"failed\n"` (7 characters) checked by `handle_exit_status`. -/
def failedMarker : List Char := ['f', 'a', 'i', 'l', 'e', 'd', '\n']

/-- `str::find` for the fixed marker: the first index at which `marker` is a
prefix of the rest of `text`, as used by `output.find("failed\n")`. -/
def strFind (text marker : List Char) : Option Nat :=
  (List.range (text.length + 1)).find? (fun i => marker.isPrefixOf (text.drop i))

/-- `handle_exit_status` (`src/subcommand/test.rs` lines 100-166). The first
component is the returned `TestResult`; the second is the diagnostic text
whose lines the function writes to stderr (`none` when nothing beyond the
"OK" progress line is printed). `exit_status.code()` is modelled as
`Option Int`. -/
def handle_exit_status (exit_code : Option Int) (output : List Char)
    (target_name : List Char) : TestResult × Option (List Char) :=
  match exit_code with
  | none => (TestResult.Invalid, some output)
  | some code =>
    if code = 1 then
      if okMarker.isPrefixOf output then (TestResult.Ok, none)
      else if failedMarker.isPrefixOf output then
        (TestResult.Failed, some (output.drop 7))
      else (TestResult.Invalid, some output)
    else if code = 5 then (TestResult.Ok, none)
    else if code = 7 then
      match strFind output failedMarker with
      | some i => (TestResult.Failed, some ((output.drop i).drop 7))
      | none => (TestResult.Failed, some target_name)
    else (TestResult.Invalid, some output)

/-- The `{:?}` rendering of a `TestResult`, as used in the per-target
diagnostic line of `test` (`src/subcommand/test.rs` line 94). -/
def test_result_debug : TestResult → String
  | TestResult.Ok => "Ok"
  | TestResult.Failed => "Failed"
  | TestResult.TimedOut => "TimedOut"
  | TestResult.Invalid => "Invalid"

/-- The header line written before the per-target diagnostic lines. -/
def fail_header : String := "The following tests failed:"

/-- One per-target diagnostic line: `"    {}: {:?}"` of name and result. -/
def diag_line (t : String × TestResult) : String :=
  "    " ++ t.1 ++ ": " ++ test_result_debug t.2

/-- The aggregation step of `test` (`src/subcommand/test.rs` lines 87-97):
given the per-target verdicts, the process exit code and the lines written to
the error stream. All-Ok yields exit code 0 and no error output; otherwise
`process::exit(1)` after the header plus one line per non-Ok target. -/
def test_aggregate (tests : List (String × TestResult)) : Nat × List String :=
  if tests.all (fun t => t.2 == TestResult.Ok) then (0, [])
  else
    (1, fail_header ::
      (tests.filter (fun t => !(t.2 == TestResult.Ok))).map diag_line)

/-- One section of an ELF file: its name and its raw data bytes. -/
structure ElfSection where
  name : String
  raw_data : List Nat
deriving DecidableEq

/-- The view of an ELF file used by `build_bootloader`: its section list. -/
structure ElfFile where
  sections : List ElfSection
deriving DecidableEq

/-- Models the `xmas_elf` collaborator interface `find_section_by_name`
called at `src/build.rs` line 334: the first section whose name matches. -/
def find_section_by_name (elf : ElfFile) (name : String) : Option ElfSection :=
  elf.sections.find? (fun s => s.name == name)

/-- The extraction step of `build_bootloader` (`src/build.rs` lines 330-337):
`.expect("bootloader must have a .bootloader section")` panics (modelled as
`none`) when the section is absent; otherwise an owned copy of the section's
raw data is returned. -/
def extract_bootloader_section (elf : ElfFile) : Option (List Nat) :=
  match find_section_by_name elf ".bootloader" with
  | some s => some s.raw_data
  | none => none

/-- A cargo target as filtered by `test` (`src/subcommand/test.rs` line 25). -/
structure CargoTarget where
  name : String
  kind : List String
deriving DecidableEq

/-- The test-target selection of `test` (`src/subcommand/test.rs` lines
22-25): `t.kind == ["bin"] && t.name.starts_with("test-")`. -/
def filter_test_targets (targets : List CargoTarget) : List CargoTarget :=
  targets.filter (fun t => t.kind == ["bin"] && t.name.startsWith "test-")

/-- Concrete ELF input used to instantiate the section-extraction theorem. -/
def sampleElf : ElfFile :=
  ⟨[⟨".text", [1, 2]⟩, ⟨".bootloader", [9, 8, 7]⟩]⟩

/-- Every entry of a zero-filled buffer reads as zero (also out of range,
since the read default is zero as well). -/
theorem getD_replicate_zero (n i : Nat) : (List.replicate n (0 : Nat)).getD i 0 = 0 := by
  rcases Nat.lt_or_ge i n with h | h
  · rw [List.getD_eq_getElem _ _ (by simpa using h)]
    simp
  · rw [List.getD_eq_default]
    simpa using h

/-- Little-endian round trip for values in the 32-bit range. -/
theorem decodeU32LE_writeU32LE (s : Nat) (h : s ≤ u32Max) :
    decodeU32LE (writeU32LE s) = s := by
  simp only [decodeU32LE, writeU32LE, u32Max] at *
  simp only [List.getD_cons_zero, List.getD_cons_succ]
  omega

/-- The padding computed by `pad_file` completes the written segment to a
multiple of 512 bytes. -/
theorem pad_len_dvd (n : Nat) : 512 ∣ n + pad_len n := by
  simp only [pad_len]
  omega

/-- A list is a (boolean) prefix of itself followed by anything. -/
theorem isPrefixOf_append_self (l₁ l₂ : List Char) :
    l₁.isPrefixOf (l₁ ++ l₂) = true := by
  induction l₁ with
  | nil => simp [List.isPrefixOf]
  | cons a t ih => simp [List.isPrefixOf, ih]

/-- A boolean prefix can be split off the front of the larger list. -/
theorem eq_append_of_isPrefixOf (l₁ l₂ : List Char) (h : l₁.isPrefixOf l₂ = true) :
    l₂ = l₁ ++ l₂.drop l₁.length := by
  induction l₁ generalizing l₂ with
  | nil => simp
  | cons a t ih =>
    cases l₂ with
    | nil => simp [List.isPrefixOf] at h
    | cons b bs =>
      simp only [List.isPrefixOf, Bool.and_eq_true, beq_iff_eq] at h
      obtain ⟨hab, ht⟩ := h
      subst hab
      simpa using ih bs ht

/-- When `strFind` locates the marker at index `i`, the text splits as the
part before the marker, the marker, and the part after the marker. -/
theorem strFind_eq_some_split (text marker : List Char) (i : Nat)
    (h : strFind text marker = some i) :
    text = text.take i ++ marker ++ (text.drop i).drop marker.length := by
  have h2r : (List.range (text.length + 1)).find?
      (fun j => marker.isPrefixOf (text.drop j)) = some i := h
  have hp : marker.isPrefixOf (text.drop i) = true := by
    simpa using List.find?_some h2r
  have h2 : text.drop i = marker ++ (text.drop i).drop marker.length :=
    eq_append_of_isPrefixOf _ _ hp
  calc text = text.take i ++ text.drop i := (List.take_append_drop i text).symm
    _ = text.take i ++ (marker ++ (text.drop i).drop marker.length) := by rw [← h2]
    _ = text.take i ++ marker ++ (text.drop i).drop marker.length := by
        rw [List.append_assoc]

/-- Whatever the configured minimum size, the written image is the assembled
segments followed by some run of zero bytes (empty when no extension
happens). -/
theorem create_disk_image_eq (bl k : List Nat) (pkg : Option (List Nat))
    (info : List Nat) (min : Option Nat) :
    ∃ ext : Nat, create_disk_image bl k pkg info min =
      assemble_segments bl k pkg info ++ List.replicate ext 0 := by
  cases min with
  | none => exact ⟨0, by simp [create_disk_image]⟩
  | some m =>
    by_cases h : (assemble_segments bl k pkg info).length < m
    · exact ⟨m - (assemble_segments bl k pkg info).length, by
        simp [create_disk_image, h]⟩
    · exact ⟨0, by simp [create_disk_image, h]⟩

/-- The info block buffer is exactly 512 bytes long. -/
theorem raw_info_block_length (s pk : Nat) : (raw_info_block s pk).length = 512 := by
  simp [raw_info_block, writeU32LE]

/-- Bytes [0,4) of the info block are the little-endian kernel size. -/
theorem raw_info_block_take4 (s pk : Nat) :
    (raw_info_block s pk).take 4 = writeU32LE s := by
  have h1 : raw_info_block s pk =
      writeU32LE s ++
        (List.replicate 4 0 ++ (writeU32LE pk ++ List.replicate 500 0)) := by
    simp [raw_info_block, List.append_assoc]
  rw [h1]
  exact List.take_left' (by simp [writeU32LE])

/-- Bytes [8,12) of the info block are the little-endian package size. -/
theorem raw_info_block_pkg (s pk : Nat) :
    ((raw_info_block s pk).drop 8).take 4 = writeU32LE pk := by
  have h1 : raw_info_block s pk =
      (writeU32LE s ++ List.replicate 4 0) ++
        (writeU32LE pk ++ List.replicate 500 0) := by
    simp [raw_info_block, List.append_assoc]
  rw [h1, List.drop_left' (by simp [writeU32LE])]
  exact List.take_left' (by simp [writeU32LE])

/-- All info-block bytes outside [0,4) and [8,12) are zero. -/
theorem raw_info_block_zero (s pk : Nat) (i : Nat)
    (h : (4 ≤ i ∧ i < 8) ∨ 12 ≤ i) : (raw_info_block s pk).getD i 0 = 0 := by
  rcases h with ⟨h4, h8⟩ | h12
  · have h1 : raw_info_block s pk =
        writeU32LE s ++
          (List.replicate 4 0 ++ (writeU32LE pk ++ List.replicate 500 0)) := by
      simp [raw_info_block, List.append_assoc]
    rw [h1, List.getD_append_right _ _ _ _ (by simp [writeU32LE]; omega),
      List.getD_append _ _ _ _ (by simp [writeU32LE]; omega)]
    exact getD_replicate_zero _ _
  · have h1 : raw_info_block s pk =
        ((writeU32LE s ++ List.replicate 4 0) ++ writeU32LE pk) ++
          List.replicate 500 0 := by
      simp [raw_info_block, List.append_assoc]
    rw [h1, List.getD_append_right _ _ _ _ (by simp [writeU32LE]; omega)]
    exact getD_replicate_zero _ _

/-- Claim C3: for every kernel size `s` and optional package size `p`, each at
most `2^32 - 1`, `create_kernel_info_block` returns a block of exactly 512
bytes whose bytes [0,4) decode as little-endian u32 to `s`, whose bytes
[8,12) decode to `p` (0 when absent), and whose remaining bytes are all zero;
it fails fatally (modelled as `none`) when `s` or `p` exceeds `2^32 - 1`. -/
theorem claim_C3 (s : Nat) (p : Option Nat) :
    (s ≤ u32Max → p.getD 0 ≤ u32Max →
      ∃ block, create_kernel_info_block s p = some block ∧
        block.length = 512 ∧
        decodeU32LE (block.take 4) = s ∧
        decodeU32LE ((block.drop 8).take 4) = p.getD 0 ∧
        ∀ i, i < 512 → ((4 ≤ i ∧ i < 8) ∨ 12 ≤ i) → block.getD i 0 = 0) ∧
    (u32Max < s → create_kernel_info_block s p = none) ∧
    (∀ q, p = some q → u32Max < q → create_kernel_info_block s p = none) := by
  refine ⟨?_, ?_, ?_⟩
  · intro hs hp
    refine ⟨raw_info_block s (p.getD 0), ?_, raw_info_block_length s _, ?_, ?_, ?_⟩
    · cases p with
      | none => simp [create_kernel_info_block, hs]
      | some q =>
        have hq : q ≤ u32Max := by simpa using hp
        simp [create_kernel_info_block, hs, hq]
    · rw [raw_info_block_take4]
      exact decodeU32LE_writeU32LE s hs
    · rw [raw_info_block_pkg]
      exact decodeU32LE_writeU32LE _ hp
    · intro i _ hi
      exact raw_info_block_zero s _ i hi
  · intro h
    simp [create_kernel_info_block, Nat.not_le.mpr h]
  · intro q hq hql
    subst hq
    by_cases hs : s ≤ u32Max
    · simp [create_kernel_info_block, hs, Nat.not_le.mpr hql]
    · simp [create_kernel_info_block, hs]

/-- Witness for C3 at kernel size 7 with package size 9, and at the overflow
boundary `2^32` exactly. -/
theorem claim_C3_witness :
    (∃ block, create_kernel_info_block 7 (some 9) = some block ∧
      block.length = 512 ∧
      decodeU32LE (block.take 4) = 7 ∧
      decodeU32LE ((block.drop 8).take 4) = (some 9 : Option Nat).getD 0 ∧
      ∀ i, i < 512 → ((4 ≤ i ∧ i < 8) ∨ 12 ≤ i) → block.getD i 0 = 0) ∧
    create_kernel_info_block 4294967296 none = none :=
  ⟨(claim_C3 7 (some 9)).1 (by decide) (by decide),
   (claim_C3 4294967296 none).2.1 (by decide)⟩

/-- Claim C1: with no secondary payload, the written disk image starts with
the bootloader bytes followed by the 512-byte info block, and the kernel
segment (kernel bytes plus the zero padding `pad_file` appends after them)
has length a multiple of 512; with no minimum size the image is exactly
bootloader, info block, kernel and padding. -/
theorem claim_C1 (bl k info : List Nat) (min : Option Nat)
    (hinfo : info.length = 512) :
    (create_disk_image bl k none info min).take (bl.length + 512) = bl ++ info ∧
    512 ∣ (k.length + pad_len k.length) ∧
    create_disk_image bl k none info none =
      bl ++ info ++ (k ++ List.replicate (pad_len k.length) 0) := by
  have hshape : ∀ m, ∃ t, create_disk_image bl k none info m = (bl ++ info) ++ t := by
    intro m
    obtain ⟨ext, heq⟩ := create_disk_image_eq bl k none info m
    refine ⟨k ++ List.replicate (pad_len k.length) 0 ++ List.replicate ext 0, ?_⟩
    rw [heq]
    simp [assemble_segments, List.append_assoc]
  refine ⟨?_, pad_len_dvd _, ?_⟩
  · obtain ⟨t, ht⟩ := hshape min
    rw [ht]
    exact List.take_left' (by simp [hinfo])
  · simp [create_disk_image, assemble_segments, List.append_assoc]

/-- Witness for C1 at a 2-byte bootloader, a 1-byte kernel, an all-zero
512-byte info block and no minimum size. -/
theorem claim_C1_witness :
    (create_disk_image [1, 2] [3] none (List.replicate 512 0) none).take
        (([1, 2] : List Nat).length + 512) = [1, 2] ++ List.replicate 512 0 ∧
    512 ∣ (([3] : List Nat).length + pad_len ([3] : List Nat).length) ∧
    create_disk_image [1, 2] [3] none (List.replicate 512 0) none =
      [1, 2] ++ List.replicate 512 0 ++
        ([3] ++ List.replicate (pad_len ([3] : List Nat).length) 0) :=
  claim_C1 [1, 2] [3] (List.replicate 512 0) none (by simp)

/-- Counterexample to C2 as stated: with a 1-byte bootloader and a 1-byte
kernel, the assembled image (using the real info block for kernel size 1) has
length 1025, so the padding written after the kernel does not bring the
running total length of the image to a multiple of 512; moreover the byte
immediately after the bootloader segment is 1 (the low byte of the kernel
size in the info block), not zero padding. -/
theorem claim_C2_counterexample :
    ∃ img, build_disk_image [1] [1] none none = some img ∧
      img.length % 512 = 1 ∧ img.getD 1 0 = 1 :=
  ⟨create_disk_image [1] [1] none (raw_info_block 1 0) none,
   by decide, by decide, by decide⟩

/-- Claim C2, amended: the assembled disk image is the ordered concatenation
[BootloaderSection][KernelInfoBlock][KernelBytes][padding][optional
PackageBytes][padding][optional zero-extension], in which the kernel bytes
and the package bytes are each followed by zero padding that brings that
segment's own length (the segment's bytes plus its padding) to a multiple of
512 bytes; the bootloader section is followed immediately by the info block,
with no padding, so the running image total is a multiple of 512 only when
the bootloader length is. -/
theorem claim_C2_amended (bl k p info : List Nat) (min : Option Nat) :
    ∃ ext : Nat,
      create_disk_image bl k (some p) info min =
        bl ++ info ++ k ++ List.replicate (pad_len k.length) 0 ++ p ++
          List.replicate (pad_len p.length) 0 ++ List.replicate ext 0 ∧
      512 ∣ (k.length + pad_len k.length) ∧
      512 ∣ (p.length + pad_len p.length) := by
  obtain ⟨ext, heq⟩ := create_disk_image_eq bl k (some p) info min
  refine ⟨ext, ?_, pad_len_dvd _, pad_len_dvd _⟩
  rw [heq]
  simp [assemble_segments, List.append_assoc]

/-- Claim C4: with a configured minimum size no larger than the natural
output length the file is left unchanged; with a larger minimum the file is
extended to exactly that minimum with trailing zero bytes; with no minimum
the length is the natural length. -/
theorem claim_C4 (bl k : List Nat) (pkg : Option (List Nat)) (info : List Nat)
    (m : Nat) :
    create_disk_image bl k pkg info none = assemble_segments bl k pkg info ∧
    (m ≤ (create_disk_image bl k pkg info none).length →
      create_disk_image bl k pkg info (some m) =
        create_disk_image bl k pkg info none) ∧
    ((create_disk_image bl k pkg info none).length < m →
      create_disk_image bl k pkg info (some m) =
        create_disk_image bl k pkg info none ++
          List.replicate (m - (create_disk_image bl k pkg info none).length) 0 ∧
      (create_disk_image bl k pkg info (some m)).length = m) := by
  have hnat : create_disk_image bl k pkg info none = assemble_segments bl k pkg info :=
    rfl
  refine ⟨hnat, ?_, ?_⟩
  · intro h
    rw [hnat] at h ⊢
    show (if (assemble_segments bl k pkg info).length < m then _ else _) = _
    rw [if_neg (by omega)]
  · intro h
    rw [hnat] at h
    have h1 : create_disk_image bl k pkg info (some m) =
        assemble_segments bl k pkg info ++
          List.replicate (m - (assemble_segments bl k pkg info).length) 0 := by
      show (if (assemble_segments bl k pkg info).length < m then _ else _) = _
      rw [if_pos h]
    refine ⟨by rw [hnat]; exact h1, ?_⟩
    rw [h1]
    simp only [List.length_append, List.length_replicate]
    omega

/-- Witness for C4 at the empty inputs, with minimum sizes 0 (no change) and
5 (extension to exactly 5 zero bytes). -/
theorem claim_C4_witness :
    create_disk_image ([] : List Nat) [] none [] (some 0) =
      create_disk_image ([] : List Nat) [] none [] none ∧
    (create_disk_image ([] : List Nat) [] none [] (some 5) =
      create_disk_image ([] : List Nat) [] none [] none ++
        List.replicate
          (5 - (create_disk_image ([] : List Nat) [] none [] none).length) 0 ∧
     (create_disk_image ([] : List Nat) [] none [] (some 5)).length = 5) :=
  ⟨(claim_C4 [] [] none [] 0).2.1 (by decide),
   (claim_C4 [] [] none [] 5).2.2 (by decide)⟩

/-- Claim C5: for exit code 1, text beginning with the literal `"ok"` plus a
line break yields Ok; otherwise text beginning with the literal `"failed"`
plus a line break yields Failed with diagnostic equal to the remainder after
that 7-character marker; otherwise the verdict is Invalid with the full text
as diagnostic. -/
theorem claim_C5 (output name : List Char) :
    (okMarker.isPrefixOf output = true →
      handle_exit_status (some 1) output name = (TestResult.Ok, none)) ∧
    (okMarker.isPrefixOf output = false →
      ∀ rest, output = failedMarker ++ rest →
        handle_exit_status (some 1) output name = (TestResult.Failed, some rest)) ∧
    (okMarker.isPrefixOf output = false → failedMarker.isPrefixOf output = false →
      handle_exit_status (some 1) output name = (TestResult.Invalid, some output)) := by
  refine ⟨?_, ?_, ?_⟩
  · intro h
    simp [handle_exit_status, h]
  · intro hok rest hrest
    subst hrest
    have hf : failedMarker.isPrefixOf (failedMarker ++ rest) = true :=
      isPrefixOf_append_self _ _
    have hd : (failedMarker ++ rest).drop 7 = rest := List.drop_left' rfl
    simp [handle_exit_status, hok, hf, hd]
  · intro h1 h2
    simp [handle_exit_status, h1, h2]

/-- Witness for C5 at exit code 1 with output `"failed\nr"`. -/
theorem claim_C5_witness :
    handle_exit_status (some 1) (failedMarker ++ ['r']) [] =
      (TestResult.Failed, some ['r']) :=
  (claim_C5 (failedMarker ++ ['r']) []).2.1 (by decide) ['r'] rfl

/-- Counterexample to C6 as stated: for exit code 7 and output `"failed\nY"`
(the marker at index 0 followed by `Y`), the decoder's diagnostic is `"Y"`,
the text after the 7-character marker, not the text from the marker onward
(`"failed\nY"`). -/
theorem claim_C6_counterexample :
    handle_exit_status (some 7) (failedMarker ++ ['Y']) ['t'] =
      (TestResult.Failed, some ['Y']) ∧
    some ['Y'] ≠ some (failedMarker ++ ['Y']) := by
  constructor
  · decide
  · decide

/-- Claim C6, amended: for exit code 7, if the text contains the 7-character
marker `"failed\n"` anywhere then the verdict is Failed with diagnostic equal
to the text after the first marker occurrence (the text splits as prefix,
marker, diagnostic); otherwise Failed with only the target name as
diagnostic. In both cases the verdict is Failed, never Invalid. -/
theorem claim_C6_amended (output name : List Char) :
    (handle_exit_status (some 7) output name).1 = TestResult.Failed ∧
    (∀ i, strFind output failedMarker = some i →
      output = output.take i ++ failedMarker ++ (output.drop i).drop 7 ∧
      handle_exit_status (some 7) output name =
        (TestResult.Failed, some ((output.drop i).drop 7))) ∧
    (strFind output failedMarker = none →
      handle_exit_status (some 7) output name = (TestResult.Failed, some name)) := by
  refine ⟨?_, ?_, ?_⟩
  · rcases h : strFind output failedMarker with _ | i
    · simp [handle_exit_status, h]
    · simp [handle_exit_status, h]
  · intro i h
    exact ⟨strFind_eq_some_split output failedMarker i h,
      by simp [handle_exit_status, h]⟩
  · intro h
    simp [handle_exit_status, h]

/-- Witness for C6 at exit code 7 with output `"xfailed\nY"`: the marker is
found at index 1 and the diagnostic is the text after it. -/
theorem claim_C6_witness :
    handle_exit_status (some 7) (['x'] ++ failedMarker ++ ['Y']) ['t'] =
      (TestResult.Failed, some (((['x'] ++ failedMarker ++ ['Y']).drop 1).drop 7)) :=
  ((claim_C6_amended (['x'] ++ failedMarker ++ ['Y']) ['t']).2.1 1 (by decide)).2

/-- Claim C7: exit code 5 always yields Ok; termination without an exit code
yields Invalid with the full text as diagnostic; and every exit code other
than 1, 5 and 7 yields Invalid with the full text as diagnostic. -/
theorem claim_C7 (output name : List Char) (code : Int) :
    handle_exit_status (some 5) output name = (TestResult.Ok, none) ∧
    handle_exit_status none output name = (TestResult.Invalid, some output) ∧
    (code ≠ 1 → code ≠ 5 → code ≠ 7 →
      handle_exit_status (some code) output name =
        (TestResult.Invalid, some output)) := by
  refine ⟨by simp [handle_exit_status], rfl, ?_⟩
  intro h1 h5 h7
  simp [handle_exit_status, h1, h5, h7]

/-- Witness for C7 at the unrecognized exit code 42. -/
theorem claim_C7_witness :
    handle_exit_status (some 42) ['z'] [] = (TestResult.Invalid, some ['z']) :=
  (claim_C7 ['z'] [] 42).2.2 (by decide) (by decide) (by decide)

/-- Claim C8: on an ELF without a section named exactly `.bootloader` the
extraction step fails fatally (modelled as `none`); on one containing such a
section it returns a copy byte-for-byte equal to that section's raw data. -/
theorem claim_C8 (elf : ElfFile) :
    ((∀ s ∈ elf.sections, s.name ≠ ".bootloader") →
      extract_bootloader_section elf = none) ∧
    ((∃ s ∈ elf.sections, s.name = ".bootloader") →
      ∃ s ∈ elf.sections, s.name = ".bootloader" ∧
        extract_bootloader_section elf = some s.raw_data) := by
  constructor
  · intro h
    have hf : elf.sections.find? (fun s => s.name == ".bootloader") = none :=
      List.find?_eq_none.mpr fun x hx => by simpa using h x hx
    simp [extract_bootloader_section, find_section_by_name, hf]
  · intro hex
    rcases hf : elf.sections.find? (fun s => s.name == ".bootloader") with _ | s
    · exfalso
      obtain ⟨s, hs, hn⟩ := hex
      have h2 := List.find?_eq_none.mp hf s hs
      simp [hn] at h2
    · refine ⟨s, List.mem_of_find?_eq_some hf, ?_, ?_⟩
      · simpa using List.find?_some hf
      · simp [extract_bootloader_section, find_section_by_name, hf]

/-- Witness for C8 at a two-section ELF whose second section is
`.bootloader` with raw data `[9, 8, 7]`. -/
theorem claim_C8_witness :
    ∃ s ∈ sampleElf.sections, s.name = ".bootloader" ∧
      extract_bootloader_section sampleElf = some s.raw_data :=
  (claim_C8 sampleElf).2 ⟨⟨".bootloader", [9, 8, 7]⟩, by decide, rfl⟩

/-- Claim C9: the aggregate outcome has process exit code 0 iff every
target's verdict is Ok; otherwise the exit code is 1 and the error stream
carries the header followed by exactly one diagnostic line per non-Ok
target. -/
theorem claim_C9 (tests : List (String × TestResult)) :
    ((test_aggregate tests).1 = 0 ↔ ∀ t ∈ tests, t.2 = TestResult.Ok) ∧
    ((test_aggregate tests).1 ≠ 0 →
      (test_aggregate tests).1 = 1 ∧
      (test_aggregate tests).2 =
        fail_header ::
          (tests.filter (fun t => !(t.2 == TestResult.Ok))).map diag_line) := by
  have hiff : (tests.all (fun t => t.2 == TestResult.Ok) = true) ↔
      ∀ t ∈ tests, t.2 = TestResult.Ok := by
    simp [List.all_eq_true]
  by_cases hall : tests.all (fun t => t.2 == TestResult.Ok) = true
  · constructor
    · exact ⟨fun _ => hiff.mp hall, fun _ => by simp [test_aggregate, hall]⟩
    · intro hne
      exact absurd (by simp [test_aggregate, hall]) hne
  · constructor
    · constructor
      · intro h0
        have h1 : (test_aggregate tests).1 = 1 := by simp [test_aggregate, hall]
        omega
      · intro hok
        exact absurd (hiff.mpr hok) hall
    · intro _
      simp [test_aggregate, hall]

/-- Witness for C9 at one Ok target and one Failed target: exit code 1 and
one diagnostic line for the failing target. -/
theorem claim_C9_witness :
    (test_aggregate [("a", TestResult.Ok), ("b", TestResult.Failed)]).1 = 1 ∧
    (test_aggregate [("a", TestResult.Ok), ("b", TestResult.Failed)]).2 =
      fail_header ::
        ([("a", TestResult.Ok), ("b", TestResult.Failed)].filter
          (fun t => !(t.2 == TestResult.Ok))).map diag_line :=
  (claim_C9 [("a", TestResult.Ok), ("b", TestResult.Failed)]).2 (by decide)

/-- Claim C10: the test subcommand selects as test targets exactly the
targets whose kind is `["bin"]` and whose name starts with `"test-"`. -/
theorem claim_C10 (targets : List CargoTarget) (t : CargoTarget) :
    t ∈ filter_test_targets targets ↔
      t ∈ targets ∧ t.kind = ["bin"] ∧ t.name.startsWith "test-" = true := by
  simp [filter_test_targets, List.mem_filter, and_assoc]

end Bootimage
